import Mathlib

namespace ParquetModel

/-- The subset of `Encoding::type` (parquet/types.h) used by the writer core. -/
inductive EncodingT
  | PLAIN
  | RLE
  | BIT_PACKED
  | RLE_DICTIONARY
  | PLAIN_DICTIONARY
  deriving DecidableEq, Repr

/-- Model of `ParquetVersion::type` (parquet/types.h). -/
inductive ParquetVersionT
  | PARQUET_1_0
  | PARQUET_2_0
  deriving DecidableEq, Repr

/-- Model of `FileMetaData::version()` (metadata.cc lines 732-743): a `switch` on the
stored thrift `version` field (`int32_t`), with `1` and the `default` branch
both producing `PARQUET_1_0` and `2` producing `PARQUET_2_0`. -/
def FileMetaData.version (storedVersion : Int) : ParquetVersionT :=
  if storedVersion = 1 then ParquetVersionT.PARQUET_1_0
  else if storedVersion = 2 then ParquetVersionT.PARQUET_2_0
  else ParquetVersionT.PARQUET_1_0

/-- The observable behaviour of `ColumnEncryptionProperties`
(parquet/encryption.h, external to src) consumed by
`Encryptor::EncryptColumnMetaData`: the two boolean accessors
`is_encrypted()` and `is_encrypted_with_footer_key()`. -/
structure ColumnEncryptionPropertiesT where
  isEncrypted : Bool
  isEncryptedWithFooterKey : Bool
  deriving DecidableEq, Repr

/-- Model of `Encryptor::EncryptColumnMetaData` (internal_file_encryptor.h lines 50-60).
A missing `shared_ptr` is `none`. -/
def Encryptor.EncryptColumnMetaData (encryptedFooter : Bool)
    (columnEncryptionProperties : Option ColumnEncryptionPropertiesT) : Bool :=
  match columnEncryptionProperties with
  | none => false
  | some props =>
    if !props.isEncrypted then false
    else if !encryptedFooter then true
    else !props.isEncryptedWithFooterKey

/-! ## PageWriter state machine

`SerializedPageWriter` (column_writer.cc lines 132-407).  The thrift
serializer, the compression codec and the encryptors are external
collaborators; what they contribute to the offset/total bookkeeping is the
byte count of the serialized page header (`header_size`) and the final
payload byte count (`output_data_len`), so each incoming page is described
by those sizes.  The sink is modelled by the position it reports via
`Tell` (writing `n` bytes advances it by `n`). -/

/-- Size data of one call to `SerializedPageWriter::WriteDataPage`:
the serialized thrift header byte count, the payload byte count actually
written (`output_data_len`), the `uncompressed_page_size` recorded in the
header, and the page's `num_values`. -/
structure DataPageSizes where
  headerSize : Nat
  compressedSize : Nat
  uncompressedSize : Nat
  numValues : Nat
  deriving DecidableEq, Repr

/-- Size data of one call to `SerializedPageWriter::WriteDictionaryPage`. -/
structure DictPageSizes where
  headerSize : Nat
  compressedSize : Nat
  uncompressedSize : Nat
  deriving DecidableEq, Repr

/-- One page handed to the page writer. -/
inductive PageOp
  | dict (sizes : DictPageSizes)
  | data (sizes : DataPageSizes)
  deriving DecidableEq, Repr

def PageOp.isDict : PageOp → Bool
  | .dict _ => true
  | .data _ => false

/-- The `uncompressed_page_size` value recorded in the page's header. -/
def PageOp.uncompressedPageSize : PageOp → Nat
  | .dict p => p.uncompressedSize
  | .data p => p.uncompressedSize

/-- The `compressed_page_size` value recorded in the page's header
(the byte count of the payload as written). -/
def PageOp.compressedPageSize : PageOp → Nat
  | .dict p => p.compressedSize
  | .data p => p.compressedSize

/-- The byte count of the page's serialized thrift header. -/
def PageOp.headerSize : PageOp → Nat
  | .dict p => p.headerSize
  | .data p => p.headerSize

/-- The mutable fields of `SerializedPageWriter` involved in offset and
size bookkeeping (column_writer.cc lines 383-393), together with the
sink position. -/
structure PageWriterState where
  sinkPos : Nat
  numValues : Nat
  dictionaryPageOffset : Nat
  dataPageOffset : Nat
  totalUncompressedSize : Nat
  totalCompressedSize : Nat
  pageOrdinal : Nat
  deriving DecidableEq, Repr

/-- Constructor state (column_writer.cc lines 140-152): all counters zero;
the sink is at position `sinkPos`. -/
def PageWriterState.init (sinkPos : Nat) : PageWriterState :=
  { sinkPos := sinkPos
    numValues := 0
    dictionaryPageOffset := 0
    dataPageOffset := 0
    totalUncompressedSize := 0
    totalCompressedSize := 0
    pageOrdinal := 0 }

/-- Model of `SerializedPageWriter::WriteDictionaryPage` (lines 162-223): records
`dictionary_page_offset` on the first call (0 used as the not-yet-set
sentinel), writes header then payload, adds `size + header_size` to both
totals, and returns the bytes written (`final_pos - start_pos`).
`num_values_` and `page_ordinal_` are not touched. -/
def SerializedPageWriter.WriteDictionaryPage (p : DictPageSizes)
    (st : PageWriterState) : PageWriterState × Nat :=
  let startPos := st.sinkPos
  let st1 :=
    if st.dictionaryPageOffset = 0 then
      { st with dictionaryPageOffset := startPos }
    else st
  let st2 :=
    { st1 with
      sinkPos := startPos + p.headerSize + p.compressedSize
      totalUncompressedSize :=
        st1.totalUncompressedSize + p.uncompressedSize + p.headerSize
      totalCompressedSize :=
        st1.totalCompressedSize + p.compressedSize + p.headerSize }
  (st2, st2.sinkPos - startPos)

/-- Model of `SerializedPageWriter::WriteDataPage` (lines 260-317): records
`data_page_offset` on the first call (0 used as the not-yet-set sentinel),
writes header then payload, adds `size + header_size` to both totals,
advances `num_values_` and `page_ordinal_`, and returns the bytes
written. -/
def SerializedPageWriter.WriteDataPage (p : DataPageSizes)
    (st : PageWriterState) : PageWriterState × Nat :=
  let startPos := st.sinkPos
  let st1 :=
    if st.dataPageOffset = 0 then
      { st with dataPageOffset := startPos }
    else st
  let st2 :=
    { st1 with
      sinkPos := startPos + p.headerSize + p.compressedSize
      totalUncompressedSize :=
        st1.totalUncompressedSize + p.uncompressedSize + p.headerSize
      totalCompressedSize :=
        st1.totalCompressedSize + p.compressedSize + p.headerSize
      numValues := st1.numValues + p.numValues
      pageOrdinal := st1.pageOrdinal + 1 }
  (st2, st2.sinkPos - startPos)

def pageWriterStep (st : PageWriterState) (op : PageOp) : PageWriterState :=
  match op with
  | .dict p => (SerializedPageWriter.WriteDictionaryPage p st).1
  | .data p => (SerializedPageWriter.WriteDataPage p st).1

/-- A sequence of page writes against a `SerializedPageWriter`. -/
def runPageWriter (st : PageWriterState) (ops : List PageOp) : PageWriterState :=
  ops.foldl pageWriterStep st

/-- The offset/size fields of the `format::ColumnChunk` record produced by
`ColumnChunkMetaDataBuilder::Finish` (metadata.cc lines 958-975); optional
thrift fields are `Option`. The encodings vector, the crypto metadata and
the statistics do not interact with the offset bookkeeping and are not
modelled. -/
structure ColumnChunkMeta where
  fileOffset : Int
  dictionaryPageOffset : Option Int
  indexPageOffset : Option Int
  dataPageOffset : Int
  numValues : Int
  totalUncompressedSize : Int
  totalCompressedSize : Int
  deriving DecidableEq, Repr

/-- Model of `ColumnChunkMetaDataBuilder::Finish` (metadata.cc lines 958-975), the
offset/size part: sets `dictionary_page_offset` and bases `file_offset`
on it when `dictionary_page_offset > 0`, else bases `file_offset` on
`data_page_offset`; `index_page_offset` is set only when non-negative. -/
def ColumnChunkMetaDataBuilder.Finish (numValues dictionaryPageOffset
    indexPageOffset dataPageOffset compressedSize uncompressedSize : Int) :
    ColumnChunkMeta :=
  { fileOffset :=
      if 0 < dictionaryPageOffset then dictionaryPageOffset + compressedSize
      else dataPageOffset + compressedSize
    dictionaryPageOffset :=
      if 0 < dictionaryPageOffset then some dictionaryPageOffset else none
    indexPageOffset := if 0 ≤ indexPageOffset then some indexPageOffset else none
    dataPageOffset := dataPageOffset
    numValues := numValues
    totalUncompressedSize := uncompressedSize
    totalCompressedSize := compressedSize }

/-- Model of `SerializedPageWriter::Close` (column_writer.cc lines 225-237): hands
the accumulated offsets and totals to `Finish` with
`index_page_offset = -1`. -/
def SerializedPageWriter.Close (st : PageWriterState) : ColumnChunkMeta :=
  ColumnChunkMetaDataBuilder.Finish (st.numValues : Int)
    (st.dictionaryPageOffset : Int) (-1) (st.dataPageOffset : Int)
    (st.totalCompressedSize : Int) (st.totalUncompressedSize : Int)

/-- Model of `BufferedPageWriter::Close` (column_writer.cc lines 430-446): rebases
the offsets recorded against the in-memory sink by the final sink's
current position before finishing the metadata. -/
def BufferedPageWriter.Close (finalPosition : Nat) (st : PageWriterState) :
    ColumnChunkMeta :=
  ColumnChunkMetaDataBuilder.Finish (st.numValues : Int)
    ((st.dictionaryPageOffset : Int) + (finalPosition : Int)) (-1)
    ((st.dataPageOffset : Int) + (finalPosition : Int))
    (st.totalCompressedSize : Int) (st.totalUncompressedSize : Int)

/-! ## ColumnWriter state machine

`ColumnWriterImpl` / `TypedColumnWriterImpl` (column_writer.cc lines
491-1033).  The value encoder, the statistics accumulators and the pager's
serialization are external collaborators; the encoder is observed through
the values handed to `Put` (here `encoderValues`, emptied by
`FlushValues`) and through the sizes it reports
(`EstimatedDataEncodedSize`, `dict_encoded_size`, `num_entries`), which
enter the model as oracle arguments at the points where the code queries
them.  Byte counts returned by the pager and `page.size()` are supplied by
a `PagerModel`. -/

/-- A page handed by the column writer to its pager: the dictionary page
(carrying the dictionary encoder's encoded size and entry count) or a
data page carrying the values flushed from the value encoder, its level
count (`num_buffered_values_`) and the value encoding recorded in its
header. -/
inductive PageRecord
  | dictPage (encodedSize numEntries : Nat)
  | dataPage (values : List Nat) (numValues : Nat) (encoding : EncodingT)
  deriving DecidableEq, Repr

/-- The byte counts contributed by the external pager/serializer:
the bytes the pager reports written for a page (returned by
`WriteDataPage` / `WriteDictionaryPage`), the page's buffer size
`page.size()`, and `sizeof(format::PageHeader)`. -/
structure PagerModel where
  pageBytes : PageRecord → Nat
  pageSize : PageRecord → Nat
  pageHeaderSizeof : Nat

/-- The mutable fields of `ColumnWriterImpl` (column_writer.cc lines
571-620) involved in the verified properties, together with the observable
effects on its collaborators (`writtenPages`: pages handed to the pager in
order; `statisticsInstalled`: `metadata_->SetStatistics` happened;
`pagerClosed`: `pager_->Close` happened; `chunkStatsSet`: whether
`GetChunkStatistics().is_set()`, an external observable treated as a
constant of the chunk). -/
structure ColumnWriterState where
  hasDictionary : Bool
  fallback : Bool
  closed : Bool
  encoding : EncodingT
  encoderIsDict : Bool
  encoderValues : List Nat
  definitionLevelsSink : List Int
  repetitionLevelsSink : List Int
  numBufferedValues : Nat
  numBufferedEncodedValues : Nat
  rowsWritten : Nat
  totalBytesWritten : Nat
  totalCompressedBytes : Nat
  dataPages : List PageRecord
  writtenPages : List PageRecord
  statisticsInstalled : Bool
  chunkStatsSet : Bool
  pagerClosed : Bool
  deriving DecidableEq, Repr

/-- Model of `ColumnWriterImpl::WriteDataPage` (lines 723-725): hands the page to
the pager and adds the returned byte count to `total_bytes_written_`. -/
def ColumnWriterImpl.WriteDataPage (pm : PagerModel) (page : PageRecord)
    (st : ColumnWriterState) : ColumnWriterState :=
  { st with
    writtenPages := st.writtenPages ++ [page]
    totalBytesWritten := st.totalBytesWritten + pm.pageBytes page }

/-- Model of `TypedColumnWriterImpl::WriteDictionaryPage` (lines 878-891): builds
the dictionary page from the dictionary encoder's current encoded size and
entry count, hands it to the pager and adds the returned byte count to
`total_bytes_written_`. -/
def ColumnWriterImpl.WriteDictionaryPage (pm : PagerModel)
    (dictEncodedSize dictNumEntries : Nat) (st : ColumnWriterState) :
    ColumnWriterState :=
  { st with
    writtenPages := st.writtenPages
      ++ [PageRecord.dictPage dictEncodedSize dictNumEntries]
    totalBytesWritten := st.totalBytesWritten
      + pm.pageBytes (PageRecord.dictPage dictEncodedSize dictNumEntries) }

/-- Model of `ColumnWriterImpl::AddDataPage` (lines 653-721): flushes the value
encoder into a page; while dictionary-encoding and not fallen back the
page is deep-copied onto the buffered list and
`total_compressed_bytes_ += page.size() + sizeof(PageHeader)`, otherwise
the page is written eagerly through the pager; finally the level sinks are
re-initialized and the two buffered counters zeroed. -/
def ColumnWriterImpl.AddDataPage (pm : PagerModel) (st : ColumnWriterState) :
    ColumnWriterState :=
  let page := PageRecord.dataPage st.encoderValues st.numBufferedValues st.encoding
  let st1 := { st with encoderValues := [] }
  let st2 :=
    if st1.hasDictionary && !st1.fallback then
      { st1 with
        dataPages := st1.dataPages ++ [page]
        totalCompressedBytes :=
          st1.totalCompressedBytes + pm.pageSize page + pm.pageHeaderSizeof }
    else ColumnWriterImpl.WriteDataPage pm page st1
  { st2 with
    definitionLevelsSink := []
    repetitionLevelsSink := []
    numBufferedValues := 0
    numBufferedEncodedValues := 0 }

/-- Model of `ColumnWriterImpl::FlushBufferedDataPages` (lines 751-761): writes any
outstanding buffered values as a new page, serializes the buffered pages
in order, clears the buffer and zeroes `total_compressed_bytes_`. -/
def ColumnWriterImpl.FlushBufferedDataPages (pm : PagerModel)
    (st : ColumnWriterState) : ColumnWriterState :=
  let st1 := if 0 < st.numBufferedValues then ColumnWriterImpl.AddDataPage pm st else st
  let st2 := st1.dataPages.foldl
    (fun acc page => ColumnWriterImpl.WriteDataPage pm page acc) st1
  { st2 with dataPages := [], totalCompressedBytes := 0 }

/-- Model of `TypedColumnWriterImpl::CheckDictionarySizeLimit` (lines 861-876):
if the dictionary encoder's encoded size has reached
`dictionary_pagesize_limit`, emits the dictionary page, flushes the
buffered data pages, marks the fallback, and replaces the value encoder by
a fresh PLAIN encoder, setting `encoding_ = PLAIN`. -/
def TypedColumnWriterImpl.CheckDictionarySizeLimit (pm : PagerModel)
    (dictEncodedSize dictNumEntries dictionaryPagesizeLimit : Nat)
    (st : ColumnWriterState) : ColumnWriterState :=
  if dictionaryPagesizeLimit ≤ dictEncodedSize then
    let st1 := ColumnWriterImpl.WriteDictionaryPage pm dictEncodedSize
      dictNumEntries st
    let st2 := ColumnWriterImpl.FlushBufferedDataPages pm st1
    { st2 with
      fallback := true
      encoderIsDict := false
      encoderValues := []
      encoding := EncodingT.PLAIN }
  else st

/-- Model of `ColumnWriterImpl::Close` (lines 727-749): a no-op returning
`total_bytes_written_` when already closed; otherwise marks the writer
closed, emits the dictionary page if dictionary-encoding and not fallen
back, flushes the buffered data pages, installs the chunk statistics on
the metadata only when `rows_written_ > 0` and the accumulator is set, and
closes the pager. -/
def ColumnWriterImpl.Close (pm : PagerModel)
    (dictEncodedSize dictNumEntries : Nat) (st : ColumnWriterState) :
    ColumnWriterState × Nat :=
  if st.closed then (st, st.totalBytesWritten)
  else
    let st1 := { st with closed := true }
    let st2 :=
      if st1.hasDictionary && !st1.fallback then
        ColumnWriterImpl.WriteDictionaryPage pm dictEncodedSize dictNumEntries st1
      else st1
    let st3 := ColumnWriterImpl.FlushBufferedDataPages pm st2
    let st4 :=
      if 0 < st3.rowsWritten && st3.chunkStatsSet then
        { st3 with statisticsInstalled := true }
      else st3
    let st5 := { st4 with pagerClosed := true }
    (st5, st5.totalBytesWritten)

/-- The counting loops of `WriteMiniBatch` (lines 909-938), translated
literally: a fold over the level array incrementing a counter on each
match. -/
def countEq (levels : List Int) (target : Int) : Nat :=
  levels.foldl (fun acc l => if l = target then acc + 1 else acc) 0

/-- Model of `TypedColumnWriterImpl::WriteMiniBatch` (lines 904-962) up to, and
including, the data-page-size check — everything before the dictionary
check.  `numValues` is the `num_values` argument (the level count of the
mini-batch); `newEstimatedSize` is what
`current_encoder_->EstimatedDataEncodedSize()` reports after the values
are put.  Returns the state and `values_to_write`, the count handed to
`WriteValues`. -/
def TypedColumnWriterImpl.WriteMiniBatchCore (pm : PagerModel)
    (maxDefinitionLevel maxRepetitionLevel : Int) (dataPagesize : Nat)
    (numValues : Nat) (defLevels repLevels : List Int) (values : List Nat)
    (newEstimatedSize : Nat) (st : ColumnWriterState) :
    ColumnWriterState × Nat :=
  let valuesToWrite :=
    if 0 < maxDefinitionLevel then countEq defLevels maxDefinitionLevel
    else numValues
  let st1 :=
    if 0 < maxDefinitionLevel then
      { st with definitionLevelsSink := st.definitionLevelsSink ++ defLevels }
    else st
  let st2 :=
    if 0 < maxRepetitionLevel then
      { st1 with
        rowsWritten := st1.rowsWritten + countEq repLevels 0
        repetitionLevelsSink := st1.repetitionLevelsSink ++ repLevels }
    else { st1 with rowsWritten := st1.rowsWritten + numValues }
  let st3 := { st2 with encoderValues := st2.encoderValues ++ values.take valuesToWrite }
  let st4 :=
    { st3 with
      numBufferedValues := st3.numBufferedValues + numValues
      numBufferedEncodedValues := st3.numBufferedEncodedValues + valuesToWrite }
  let st5 :=
    if dataPagesize ≤ newEstimatedSize then ColumnWriterImpl.AddDataPage pm st4
    else st4
  (st5, valuesToWrite)

/-- Model of `TypedColumnWriterImpl::WriteMiniBatch` (lines 904-962): the core
followed by the dictionary check, which runs only while
`has_dictionary_ && !fallback_`.  `newDictEncodedSize` and
`newDictNumEntries` are what the dictionary encoder reports when
queried. -/
def TypedColumnWriterImpl.WriteMiniBatch (pm : PagerModel)
    (maxDefinitionLevel maxRepetitionLevel : Int)
    (dataPagesize dictionaryPagesizeLimit : Nat)
    (numValues : Nat) (defLevels repLevels : List Int) (values : List Nat)
    (newEstimatedSize newDictEncodedSize newDictNumEntries : Nat)
    (st : ColumnWriterState) : ColumnWriterState × Nat :=
  let r := TypedColumnWriterImpl.WriteMiniBatchCore pm maxDefinitionLevel
    maxRepetitionLevel dataPagesize numValues defLevels repLevels values
    newEstimatedSize st
  let st6 :=
    if r.1.hasDictionary && !r.1.fallback then
      TypedColumnWriterImpl.CheckDictionarySizeLimit pm newDictEncodedSize
        newDictNumEntries dictionaryPagesizeLimit r.1
    else r.1
  (st6, r.2)

/-- The page that `FlushBufferedDataPages` creates from the still-buffered
values, if any (the `num_buffered_values_ > 0` branch). -/
def tailPages (st : ColumnWriterState) : List PageRecord :=
  if 0 < st.numBufferedValues then
    [PageRecord.dataPage st.encoderValues st.numBufferedValues st.encoding]
  else []

/-- A concrete pager byte model used by the witnesses. -/
def samplePager : PagerModel :=
  { pageBytes := fun _ => 3, pageSize := fun _ => 2, pageHeaderSizeof := 5 }

/-- A concrete open, dictionary-encoding column-writer state with one
buffered page and two still-buffered values, used by the witnesses. -/
def sampleOpenState : ColumnWriterState :=
  { hasDictionary := true
    fallback := false
    closed := false
    encoding := EncodingT.RLE_DICTIONARY
    encoderIsDict := true
    encoderValues := [7, 8]
    definitionLevelsSink := [1, 1]
    repetitionLevelsSink := []
    numBufferedValues := 2
    numBufferedEncodedValues := 2
    rowsWritten := 2
    totalBytesWritten := 10
    totalCompressedBytes := 9
    dataPages := [PageRecord.dataPage [5] 1 EncodingT.RLE_DICTIONARY]
    writtenPages := []
    statisticsInstalled := false
    chunkStatsSet := true
    pagerClosed := false }

/-! ## Data page payload assembly (byte level)

`ColumnWriterImpl::RleEncodeLevels` and the buffer concatenation of
`ColumnWriterImpl::AddDataPage` (column_writer.cc lines 630-696).  Bytes
are `Nat`; the external `arrow::util::RleEncoder` enters as a function of
the max level (which fixes the bit width) and the level sequence. -/

/-- A 32-bit little-endian encoding of `n`, as
`reinterpret_cast<int32_t*>(buffer)[0] = n` produces on a little-endian
machine. -/
def u32le (n : Nat) : List Nat :=
  [n % 256, n / 256 % 256, n / 2 ^ 16 % 256, n / 2 ^ 24 % 256]

/-- Model of `memcpy(buf + off, src, src.size())`: byte-wise overwrite of `buf`
starting at offset `off`. -/
def writeBytes : List Nat → Nat → List Nat → List Nat
  | buf, _, [] => buf
  | buf, off, b :: rest => writeBytes (buf.set off b) (off + 1) rest

/-- Model of `ColumnWriterImpl::RleEncodeLevels` (lines 630-651): RLE-encodes the
levels into the destination buffer at offset 4, writes the encoded byte
count as a 32-bit little-endian integer at offset 0, and reports
`encoded_size = len + 4`; the framed block that `AddDataPage` copies is
the length prefixed to the encoder output. -/
def RleEncodeLevels (rle : Int → List Int → List Nat) (maxLevel : Int)
    (levels : List Int) : List Nat :=
  u32le (rle maxLevel levels).length ++ rle maxLevel levels

/-- The byte-level payload assembly of `ColumnWriterImpl::AddDataPage`
(lines 653-696): sizes `uncompressed_data_` as
`definition_levels_rle_size + repetition_levels_rle_size + values.size`
(a framed block is empty when the corresponding max level is 0), then
memcpy's, in order, the framed repetition levels, the framed definition
levels and the values flushed from the value encoder. -/
def AddDataPageUncompressed (rle : Int → List Int → List Nat)
    (maxDefinitionLevel maxRepetitionLevel : Int)
    (defLevels repLevels : List Int) (values : List Nat) : List Nat :=
  let definitionLevelsRle :=
    if 0 < maxDefinitionLevel then
      RleEncodeLevels rle maxDefinitionLevel defLevels
    else []
  let repetitionLevelsRle :=
    if 0 < maxRepetitionLevel then
      RleEncodeLevels rle maxRepetitionLevel repLevels
    else []
  let uncompressedSize :=
    definitionLevelsRle.length + repetitionLevelsRle.length + values.length
  let buf := List.replicate uncompressedSize 0
  let buf1 := writeBytes buf 0 repetitionLevelsRle
  let buf2 := writeBytes buf1 repetitionLevelsRle.length definitionLevelsRle
  writeBytes buf2 (repetitionLevelsRle.length + definitionLevelsRle.length)
    values

/-! ### PageWriter run lemmas -/

/-! ## Footer parsing

`SerializedFile::ParseMetaData` and helpers (file_reader.cc lines
56-57, 231-445), built with `PARQUET_ENCRYPTION` as the spec describes
the encryption layer as part of the core.  The input source is the file's
byte sequence; `ReadAt(pos, n)` denotes `(file.drop pos).take n`, so the
"buffer shorter than requested" I/O checks cannot fire.  The Thrift
compact-protocol codec and the decryption machinery are external
collaborators: the two deserializers and the two continuations (the
post-deserialization handling of the two encrypted layouts) are
parameters. -/

/-- The 4-byte magic `PAR1` (ASCII codes). -/
def kParquetMagic : List Nat := [80, 65, 82, 49]

/-- The 4-byte magic `PARE` (ASCII codes). -/
def kParquetEMagic : List Nat := [80, 65, 82, 69]

/-- file_reader.cc line 57. -/
def kFooterSize : Nat := 8

/-- file_reader.cc line 56. -/
def kDefaultFooterReadSize : Nat := 64 * 1024

/-- Model of `arrow::util::SafeLoadAs<uint32_t>` on a little-endian machine:
the 32-bit little-endian value of the first four bytes. -/
def u32leDecode (bs : List Nat) : Nat :=
  bs.getD 0 0 + 256 * bs.getD 1 0 + 2 ^ 16 * bs.getD 2 0 + 2 ^ 24 * bs.getD 3 0

/-- The observable of a successfully deserialized `FileMetaData` that
`ParseMetaData` consults: `is_encryption_algorithm_set()`. -/
structure ParsedFileMetaData where
  isEncryptionAlgorithmSet : Bool
  deriving DecidableEq, Repr

/-- The observable of `FileDecryptionProperties` that the unencrypted
branch consults: `plaintext_files_allowed()`. -/
structure FileDecryptionPropertiesT where
  plaintextFilesAllowed : Bool
  deriving DecidableEq, Repr

/-- A thrown `ParquetException` is a terminal error (`Except.error`). -/
def isFailure : Except String Unit → Bool
  | Except.error _ => true
  | Except.ok _ => false

/-- Model of `SerializedFile::ParseUnencryptedFileMetadata` (file_reader.cc lines
331-358): loads the footer length from the 4 bytes before the magic,
rejects when `kFooterSize + metadata_len > file_size`, and deserializes
the metadata bytes (whether sliced from the tail buffer or re-read, they
are the same bytes of the file); a deserializer failure is a thrown
`ParquetException`. -/
def SerializedFile.ParseUnencryptedFileMetadata
    (deserializeFileMetaData : List Nat → Option ParsedFileMetaData)
    (file footerBuffer : List Nat) (footerReadSize fileSize : Nat) :
    Except String ParsedFileMetaData :=
  let metadataLen :=
    u32leDecode ((footerBuffer.drop (footerReadSize - kFooterSize)).take 4)
  if kFooterSize + metadataLen > fileSize then
    Except.error "Invalid parquet file. File is less than file metadata size."
  else
    let metadataStart := fileSize - kFooterSize - metadataLen
    let metadataBuffer := (file.drop metadataStart).take metadataLen
    match deserializeFileMetaData metadataBuffer with
    | none => Except.error "Invalid parquet file. Corrupt metadata."
    | some fmd => Except.ok fmd

/-- Model of `SerializedFile::ParseMetaDataOfEncryptedFileWithEncryptedFooter`
(file_reader.cc lines 361-415): same footer-length validation, then the
`FileCryptoMetaData` region is deserialized after checking that
decryption properties were supplied; everything after a successful
`FileCryptoMetaData::Make` (decryptor construction, footer decryption,
`FileMetaData::Make`) involves only external collaborators and is the
continuation `encryptedFooterCont`. -/
def SerializedFile.ParseMetaDataOfEncryptedFileWithEncryptedFooter
    (deserializeFileCryptoMetaData : List Nat → Option Unit)
    (encryptedFooterCont : Except String Unit)
    (fileDecryptionProperties : Option FileDecryptionPropertiesT)
    (file footerBuffer : List Nat) (footerReadSize fileSize : Nat) :
    Except String Unit :=
  let footerLen :=
    u32leDecode ((footerBuffer.drop (footerReadSize - kFooterSize)).take 4)
  if kFooterSize + footerLen > fileSize then
    Except.error "Invalid parquet file. File is less than file metadata size."
  else
    let cryptoMetadataStart := fileSize - kFooterSize - footerLen
    let cryptoMetadataBuffer := (file.drop cryptoMetadataStart).take footerLen
    match fileDecryptionProperties with
    | none =>
      Except.error
        "No decryption properties are provided. Could not read encrypted footer metadata"
    | some _ =>
      match deserializeFileCryptoMetaData cryptoMetadataBuffer with
      | none => Except.error "Invalid parquet file. Corrupt crypto metadata."
      | some _ => encryptedFooterCont

/-- Model of `SerializedFile::ParseMetaData` (file_reader.cc lines 231-300):
rejects empty and shorter-than-8-byte files, reads the tail window of
`min(file_size, kDefaultFooterReadSize)` bytes, requires the last 4 bytes
to be `PAR1` or `PARE`, and branches: `PAR1` deserializes the plaintext
footer and then either checks `plaintext_files_allowed` (no encryption
algorithm set) or continues into the plaintext-footer-encrypted handling
(`plaintextFooterCont`, file_reader.cc lines 417-445, whose work is
signature verification through external decryptors); `PARE` goes through
the encrypted-footer path. -/
def SerializedFile.ParseMetaData
    (deserializeFileMetaData : List Nat → Option ParsedFileMetaData)
    (deserializeFileCryptoMetaData : List Nat → Option Unit)
    (plaintextFooterCont : ParsedFileMetaData → Except String Unit)
    (encryptedFooterCont : Except String Unit)
    (fileDecryptionProperties : Option FileDecryptionPropertiesT)
    (file : List Nat) : Except String Unit :=
  let fileSize := file.length
  if fileSize = 0 then Except.error "Invalid Parquet file size is 0 bytes"
  else if fileSize < kFooterSize then
    Except.error "Invalid Parquet file size is smaller than standard file footer"
  else
    let footerReadSize := min fileSize kDefaultFooterReadSize
    let footerBuffer := file.drop (fileSize - footerReadSize)
    let magic := footerBuffer.drop (footerReadSize - 4)
    if magic ≠ kParquetMagic ∧ magic ≠ kParquetEMagic then
      Except.error "Invalid parquet file. Corrupt footer."
    else if magic = kParquetMagic then
      match SerializedFile.ParseUnencryptedFileMetadata deserializeFileMetaData
          file footerBuffer footerReadSize fileSize with
      | Except.error e => Except.error e
      | Except.ok fmd =>
        if !fmd.isEncryptionAlgorithmSet then
          match fileDecryptionProperties with
          | some props =>
            if !props.plaintextFilesAllowed then
              Except.error "Applying decryption properties on plaintext file"
            else Except.ok ()
          | none => Except.ok ()
        else plaintextFooterCont fmd
    else
      SerializedFile.ParseMetaDataOfEncryptedFileWithEncryptedFooter
        deserializeFileCryptoMetaData encryptedFooterCont
        fileDecryptionProperties file footerBuffer footerReadSize fileSize

theorem pageWriterStep_sinkPos_le (st : PageWriterState) (op : PageOp) :
    st.sinkPos ≤ (pageWriterStep st op).sinkPos := by
  cases op with
  | dict p =>
    simp [pageWriterStep, SerializedPageWriter.WriteDictionaryPage]
    omega
  | data p =>
    simp [pageWriterStep, SerializedPageWriter.WriteDataPage]
    omega

theorem runPageWriter_sinkPos_le (ops : List PageOp) (st : PageWriterState) :
    st.sinkPos ≤ (runPageWriter st ops).sinkPos := by
  induction ops generalizing st with
  | nil => exact le_refl _
  | cons op rest ih =>
    calc st.sinkPos ≤ (pageWriterStep st op).sinkPos :=
          pageWriterStep_sinkPos_le st op
      _ ≤ (runPageWriter (pageWriterStep st op) rest).sinkPos := ih _
      _ = (runPageWriter st (op :: rest)).sinkPos := rfl

theorem pageWriterStep_dictOffset_of_ne (st : PageWriterState) (op : PageOp)
    (h : st.dictionaryPageOffset ≠ 0) :
    (pageWriterStep st op).dictionaryPageOffset = st.dictionaryPageOffset := by
  cases op with
  | dict p => simp [pageWriterStep, SerializedPageWriter.WriteDictionaryPage, h]
  | data p =>
    simp only [pageWriterStep, SerializedPageWriter.WriteDataPage]
    by_cases hd : st.dataPageOffset = 0 <;> simp [hd]

theorem runPageWriter_dictOffset_of_ne (ops : List PageOp)
    (st : PageWriterState) (h : st.dictionaryPageOffset ≠ 0) :
    (runPageWriter st ops).dictionaryPageOffset = st.dictionaryPageOffset := by
  induction ops generalizing st with
  | nil => rfl
  | cons op rest ih =>
    have hstep := pageWriterStep_dictOffset_of_ne st op h
    have : (runPageWriter (pageWriterStep st op) rest).dictionaryPageOffset
        = (pageWriterStep st op).dictionaryPageOffset := by
      apply ih
      rw [hstep]; exact h
    calc (runPageWriter st (op :: rest)).dictionaryPageOffset
        = (runPageWriter (pageWriterStep st op) rest).dictionaryPageOffset := rfl
      _ = (pageWriterStep st op).dictionaryPageOffset := this
      _ = st.dictionaryPageOffset := hstep

/-- Characterization of the recorded dictionary-page offset: starting from
a not-yet-set offset at a positive sink position, the offset ends positive
iff some dictionary page was written, and stays 0 otherwise. -/
theorem runPageWriter_dictOffset_char (ops : List PageOp)
    (st : PageWriterState) (hpos : 0 < st.sinkPos)
    (h0 : st.dictionaryPageOffset = 0) :
    (if ops.any PageOp.isDict then 0 < (runPageWriter st ops).dictionaryPageOffset
     else (runPageWriter st ops).dictionaryPageOffset = 0) := by
  induction ops generalizing st with
  | nil => simpa [runPageWriter] using h0
  | cons op rest ih =>
    cases op with
    | data p =>
      have hstep : (pageWriterStep st (PageOp.data p)).dictionaryPageOffset = 0 := by
        simp only [pageWriterStep, SerializedPageWriter.WriteDataPage]
        by_cases hd : st.dataPageOffset = 0 <;> simp [hd, h0]
      have hpos2 : 0 < (pageWriterStep st (PageOp.data p)).sinkPos :=
        lt_of_lt_of_le hpos (pageWriterStep_sinkPos_le st _)
      have := ih (pageWriterStep st (PageOp.data p)) hpos2 hstep
      simpa [List.any_cons, PageOp.isDict] using this
    | dict p =>
      have hstep : (pageWriterStep st (PageOp.dict p)).dictionaryPageOffset
          = st.sinkPos := by
        simp [pageWriterStep, SerializedPageWriter.WriteDictionaryPage, h0]
      have hrun : (runPageWriter (pageWriterStep st (PageOp.dict p))
          rest).dictionaryPageOffset = st.sinkPos := by
        rw [runPageWriter_dictOffset_of_ne rest _ (by rw [hstep]; omega), hstep]
      have : (runPageWriter st (PageOp.dict p :: rest)).dictionaryPageOffset
          = st.sinkPos := hrun
      simp [List.any_cons, PageOp.isDict, this, hpos]

theorem pageWriterStep_totals (st : PageWriterState) (op : PageOp) :
    (pageWriterStep st op).totalUncompressedSize
        = st.totalUncompressedSize + (op.uncompressedPageSize + op.headerSize) ∧
      (pageWriterStep st op).totalCompressedSize
        = st.totalCompressedSize + (op.compressedPageSize + op.headerSize) := by
  cases op with
  | dict p =>
    refine ⟨?_, ?_⟩ <;>
      · simp only [pageWriterStep, SerializedPageWriter.WriteDictionaryPage,
          PageOp.uncompressedPageSize, PageOp.compressedPageSize,
          PageOp.headerSize]
        by_cases hd : st.dictionaryPageOffset = 0 <;> simp [hd] <;> omega
  | data p =>
    refine ⟨?_, ?_⟩ <;>
      · simp only [pageWriterStep, SerializedPageWriter.WriteDataPage,
          PageOp.uncompressedPageSize, PageOp.compressedPageSize,
          PageOp.headerSize]
        by_cases hd : st.dataPageOffset = 0 <;> simp [hd] <;> omega

theorem runPageWriter_totals (ops : List PageOp) (st : PageWriterState) :
    (runPageWriter st ops).totalUncompressedSize
        = st.totalUncompressedSize
          + (ops.map (fun op => op.uncompressedPageSize + op.headerSize)).sum ∧
      (runPageWriter st ops).totalCompressedSize
        = st.totalCompressedSize
          + (ops.map (fun op => op.compressedPageSize + op.headerSize)).sum := by
  induction ops generalizing st with
  | nil => simp [runPageWriter]
  | cons op rest ih =>
    have hstep := pageWriterStep_totals st op
    have hrest := ih (pageWriterStep st op)
    constructor
    · calc (runPageWriter st (op :: rest)).totalUncompressedSize
          = (runPageWriter (pageWriterStep st op) rest).totalUncompressedSize := rfl
        _ = (pageWriterStep st op).totalUncompressedSize
            + (rest.map (fun op => op.uncompressedPageSize + op.headerSize)).sum :=
              hrest.1
        _ = st.totalUncompressedSize
            + ((op :: rest).map
                (fun op => op.uncompressedPageSize + op.headerSize)).sum := by
              rw [hstep.1]; simp [List.map_cons]; ring
    · calc (runPageWriter st (op :: rest)).totalCompressedSize
          = (runPageWriter (pageWriterStep st op) rest).totalCompressedSize := rfl
        _ = (pageWriterStep st op).totalCompressedSize
            + (rest.map (fun op => op.compressedPageSize + op.headerSize)).sum :=
              hrest.2
        _ = st.totalCompressedSize
            + ((op :: rest).map
                (fun op => op.compressedPageSize + op.headerSize)).sum := by
              rw [hstep.2]; simp [List.map_cons]; ring

theorem pageWriterStep_dataOffset_of_ne (st : PageWriterState) (op : PageOp)
    (h : st.dataPageOffset ≠ 0) :
    (pageWriterStep st op).dataPageOffset = st.dataPageOffset := by
  cases op with
  | dict p =>
    simp only [pageWriterStep, SerializedPageWriter.WriteDictionaryPage]
    by_cases hd : st.dictionaryPageOffset = 0 <;> simp [hd]
  | data p => simp [pageWriterStep, SerializedPageWriter.WriteDataPage, h]

theorem runPageWriter_dataOffset_of_ne (ops : List PageOp)
    (st : PageWriterState) (h : st.dataPageOffset ≠ 0) :
    (runPageWriter st ops).dataPageOffset = st.dataPageOffset := by
  induction ops generalizing st with
  | nil => rfl
  | cons op rest ih =>
    have hstep := pageWriterStep_dataOffset_of_ne st op h
    calc (runPageWriter st (op :: rest)).dataPageOffset
        = (runPageWriter (pageWriterStep st op) rest).dataPageOffset := rfl
      _ = (pageWriterStep st op).dataPageOffset := ih _ (by rw [hstep]; exact h)
      _ = st.dataPageOffset := hstep

/-- A dictionary-page write never touches `data_page_offset_`. -/
theorem pageWriterStep_dict_dataOffset (st : PageWriterState) (p : DictPageSizes) :
    (pageWriterStep st (PageOp.dict p)).dataPageOffset = st.dataPageOffset := by
  simp only [pageWriterStep, SerializedPageWriter.WriteDictionaryPage]
  by_cases hd : st.dictionaryPageOffset = 0 <;> simp [hd]

theorem runPageWriter_allDict_dataOffset (pre : List PageOp)
    (st : PageWriterState) (h : pre.all PageOp.isDict = true) :
    (runPageWriter st pre).dataPageOffset = st.dataPageOffset := by
  induction pre generalizing st with
  | nil => rfl
  | cons op rest ih =>
    cases op with
    | data p => simp [List.all_cons, PageOp.isDict] at h
    | dict p =>
      have hrest : rest.all PageOp.isDict = true := by
        simpa [List.all_cons, PageOp.isDict] using h
      calc (runPageWriter st (PageOp.dict p :: rest)).dataPageOffset
          = (runPageWriter (pageWriterStep st (PageOp.dict p)) rest).dataPageOffset :=
            rfl
        _ = (pageWriterStep st (PageOp.dict p)).dataPageOffset := ih _ hrest
        _ = st.dataPageOffset := pageWriterStep_dict_dataOffset st p

theorem runPageWriter_append (st : PageWriterState) (a b : List PageOp) :
    runPageWriter st (a ++ b) = runPageWriter (runPageWriter st a) b :=
  List.foldl_append _ _ _ _

/-! ### ColumnWriter lemmas -/

theorem foldl_writeDataPage (pm : PagerModel) (ps : List PageRecord)
    (st : ColumnWriterState) :
    ps.foldl (fun acc page => ColumnWriterImpl.WriteDataPage pm page acc) st
      = { st with
          writtenPages := st.writtenPages ++ ps
          totalBytesWritten := st.totalBytesWritten + (ps.map pm.pageBytes).sum } := by
  induction ps generalizing st with
  | nil => simp
  | cons p rest ih =>
    simp only [List.foldl_cons]
    rw [ih]
    simp [ColumnWriterImpl.WriteDataPage, Nat.add_assoc]

theorem addDataPage_eq (pm : PagerModel) (st : ColumnWriterState) :
    ColumnWriterImpl.AddDataPage pm st =
      if st.hasDictionary && !st.fallback then
        { st with
          encoderValues := []
          dataPages := st.dataPages
            ++ [PageRecord.dataPage st.encoderValues st.numBufferedValues st.encoding]
          totalCompressedBytes := st.totalCompressedBytes
            + pm.pageSize (PageRecord.dataPage st.encoderValues
                st.numBufferedValues st.encoding)
            + pm.pageHeaderSizeof
          definitionLevelsSink := []
          repetitionLevelsSink := []
          numBufferedValues := 0
          numBufferedEncodedValues := 0 }
      else
        { st with
          encoderValues := []
          writtenPages := st.writtenPages
            ++ [PageRecord.dataPage st.encoderValues st.numBufferedValues st.encoding]
          totalBytesWritten := st.totalBytesWritten
            + pm.pageBytes (PageRecord.dataPage st.encoderValues
                st.numBufferedValues st.encoding)
          definitionLevelsSink := []
          repetitionLevelsSink := []
          numBufferedValues := 0
          numBufferedEncodedValues := 0 } := by
  by_cases h : st.hasDictionary && !st.fallback <;>
    simp [ColumnWriterImpl.AddDataPage, ColumnWriterImpl.WriteDataPage, h]

theorem flushBufferedDataPages_writtenPages (pm : PagerModel)
    (st : ColumnWriterState) :
    (ColumnWriterImpl.FlushBufferedDataPages pm st).writtenPages =
      if st.hasDictionary && !st.fallback then
        st.writtenPages ++ st.dataPages ++ tailPages st
      else st.writtenPages ++ tailPages st ++ st.dataPages := by
  unfold ColumnWriterImpl.FlushBufferedDataPages tailPages
  by_cases hn : 0 < st.numBufferedValues <;>
    by_cases hd : st.hasDictionary && !st.fallback <;>
      simp [hn, hd, addDataPage_eq, foldl_writeDataPage]
  all_goals simp [ColumnWriterImpl.WriteDataPage, List.append_assoc]

theorem flushBufferedDataPages_rowsWritten (pm : PagerModel)
    (st : ColumnWriterState) :
    (ColumnWriterImpl.FlushBufferedDataPages pm st).rowsWritten
      = st.rowsWritten := by
  unfold ColumnWriterImpl.FlushBufferedDataPages
  by_cases hn : 0 < st.numBufferedValues <;>
    by_cases hd : st.hasDictionary && !st.fallback <;>
      simp [hn, hd, addDataPage_eq, foldl_writeDataPage]
  all_goals simp [ColumnWriterImpl.WriteDataPage, List.append_assoc]

theorem flushBufferedDataPages_fallback (pm : PagerModel)
    (st : ColumnWriterState) :
    (ColumnWriterImpl.FlushBufferedDataPages pm st).fallback = st.fallback := by
  unfold ColumnWriterImpl.FlushBufferedDataPages
  by_cases hn : 0 < st.numBufferedValues <;>
    by_cases hd : st.hasDictionary && !st.fallback <;>
      simp [hn, hd, addDataPage_eq, foldl_writeDataPage]
  all_goals simp [ColumnWriterImpl.WriteDataPage, List.append_assoc]

theorem flushBufferedDataPages_hasDictionary (pm : PagerModel)
    (st : ColumnWriterState) :
    (ColumnWriterImpl.FlushBufferedDataPages pm st).hasDictionary
      = st.hasDictionary := by
  unfold ColumnWriterImpl.FlushBufferedDataPages
  by_cases hn : 0 < st.numBufferedValues <;>
    by_cases hd : st.hasDictionary && !st.fallback <;>
      simp [hn, hd, addDataPage_eq, foldl_writeDataPage]
  all_goals simp [ColumnWriterImpl.WriteDataPage, List.append_assoc]

theorem flushBufferedDataPages_closed (pm : PagerModel)
    (st : ColumnWriterState) :
    (ColumnWriterImpl.FlushBufferedDataPages pm st).closed = st.closed := by
  unfold ColumnWriterImpl.FlushBufferedDataPages
  by_cases hn : 0 < st.numBufferedValues <;>
    by_cases hd : st.hasDictionary && !st.fallback <;>
      simp [hn, hd, addDataPage_eq, foldl_writeDataPage]
  all_goals simp [ColumnWriterImpl.WriteDataPage, List.append_assoc]

theorem flushBufferedDataPages_statisticsInstalled (pm : PagerModel)
    (st : ColumnWriterState) :
    (ColumnWriterImpl.FlushBufferedDataPages pm st).statisticsInstalled
      = st.statisticsInstalled := by
  unfold ColumnWriterImpl.FlushBufferedDataPages
  by_cases hn : 0 < st.numBufferedValues <;>
    by_cases hd : st.hasDictionary && !st.fallback <;>
      simp [hn, hd, addDataPage_eq, foldl_writeDataPage]
  all_goals simp [ColumnWriterImpl.WriteDataPage, List.append_assoc]

theorem flushBufferedDataPages_chunkStatsSet (pm : PagerModel)
    (st : ColumnWriterState) :
    (ColumnWriterImpl.FlushBufferedDataPages pm st).chunkStatsSet
      = st.chunkStatsSet := by
  unfold ColumnWriterImpl.FlushBufferedDataPages
  by_cases hn : 0 < st.numBufferedValues <;>
    by_cases hd : st.hasDictionary && !st.fallback <;>
      simp [hn, hd, addDataPage_eq, foldl_writeDataPage]
  all_goals simp [ColumnWriterImpl.WriteDataPage, List.append_assoc]

theorem flushBufferedDataPages_pagerClosed (pm : PagerModel)
    (st : ColumnWriterState) :
    (ColumnWriterImpl.FlushBufferedDataPages pm st).pagerClosed
      = st.pagerClosed := by
  unfold ColumnWriterImpl.FlushBufferedDataPages
  by_cases hn : 0 < st.numBufferedValues <;>
    by_cases hd : st.hasDictionary && !st.fallback <;>
      simp [hn, hd, addDataPage_eq, foldl_writeDataPage]
  all_goals simp [ColumnWriterImpl.WriteDataPage, List.append_assoc]

theorem flushBufferedDataPages_dataPages (pm : PagerModel)
    (st : ColumnWriterState) :
    (ColumnWriterImpl.FlushBufferedDataPages pm st).dataPages = [] := by
  unfold ColumnWriterImpl.FlushBufferedDataPages
  by_cases hn : 0 < st.numBufferedValues <;>
    by_cases hd : st.hasDictionary && !st.fallback <;>
      simp [hn, hd, addDataPage_eq, foldl_writeDataPage]

theorem flushBufferedDataPages_totalCompressedBytes (pm : PagerModel)
    (st : ColumnWriterState) :
    (ColumnWriterImpl.FlushBufferedDataPages pm st).totalCompressedBytes = 0 := by
  unfold ColumnWriterImpl.FlushBufferedDataPages
  by_cases hn : 0 < st.numBufferedValues <;>
    by_cases hd : st.hasDictionary && !st.fallback <;>
      simp [hn, hd, addDataPage_eq, foldl_writeDataPage]

theorem checkDictionarySizeLimit_rowsWritten (pm : PagerModel)
    (dictEncodedSize dictNumEntries limit : Nat) (st : ColumnWriterState) :
    (TypedColumnWriterImpl.CheckDictionarySizeLimit pm dictEncodedSize
        dictNumEntries limit st).rowsWritten = st.rowsWritten := by
  unfold TypedColumnWriterImpl.CheckDictionarySizeLimit
  by_cases h : limit ≤ dictEncodedSize
  · simp only [if_pos h]
    rw [show (({ ColumnWriterImpl.FlushBufferedDataPages pm
        (ColumnWriterImpl.WriteDictionaryPage pm dictEncodedSize dictNumEntries st)
        with fallback := true, encoderIsDict := false, encoderValues := [],
             encoding := EncodingT.PLAIN } : ColumnWriterState).rowsWritten)
      = (ColumnWriterImpl.FlushBufferedDataPages pm
          (ColumnWriterImpl.WriteDictionaryPage pm dictEncodedSize
            dictNumEntries st)).rowsWritten from rfl]
    rw [flushBufferedDataPages_rowsWritten]
    simp [ColumnWriterImpl.WriteDictionaryPage]
  · simp [h]

theorem addDataPage_rowsWritten (pm : PagerModel) (st : ColumnWriterState) :
    (ColumnWriterImpl.AddDataPage pm st).rowsWritten = st.rowsWritten := by
  rw [addDataPage_eq]
  by_cases h : st.hasDictionary && !st.fallback <;> simp [h]

theorem addDataPage_fallback (pm : PagerModel) (st : ColumnWriterState) :
    (ColumnWriterImpl.AddDataPage pm st).fallback = st.fallback := by
  rw [addDataPage_eq]
  by_cases h : st.hasDictionary && !st.fallback <;> simp [h]

theorem addDataPage_hasDictionary (pm : PagerModel) (st : ColumnWriterState) :
    (ColumnWriterImpl.AddDataPage pm st).hasDictionary = st.hasDictionary := by
  rw [addDataPage_eq]
  by_cases h : st.hasDictionary && !st.fallback <;> simp [h]

theorem countEq_go (levels : List Int) (target : Int) (acc : Nat) :
    levels.foldl (fun acc l => if l = target then acc + 1 else acc) acc
      = acc + levels.countP (fun l => l == target) := by
  induction levels generalizing acc with
  | nil => simp
  | cons l rest ih =>
    by_cases h : l = target <;>
      · simp [List.foldl_cons, List.countP_cons, h, ih]
        try omega

theorem countEq_eq_countP (levels : List Int) (target : Int) :
    countEq levels target = levels.countP (fun l => l == target) := by
  simpa using countEq_go levels target 0

theorem writeMiniBatchCore_rowsWritten (pm : PagerModel)
    (maxDefinitionLevel maxRepetitionLevel : Int) (dataPagesize numValues : Nat)
    (defLevels repLevels : List Int) (values : List Nat)
    (newEstimatedSize : Nat) (st : ColumnWriterState) :
    (TypedColumnWriterImpl.WriteMiniBatchCore pm maxDefinitionLevel
        maxRepetitionLevel dataPagesize numValues defLevels repLevels values
        newEstimatedSize st).1.rowsWritten
      = st.rowsWritten
        + (if 0 < maxRepetitionLevel then countEq repLevels 0 else numValues) := by
  unfold TypedColumnWriterImpl.WriteMiniBatchCore
  by_cases hD : 0 < maxDefinitionLevel <;>
    by_cases hR : 0 < maxRepetitionLevel <;>
      by_cases hE : dataPagesize ≤ newEstimatedSize <;>
        simp [hD, hR, hE, addDataPage_rowsWritten]

theorem writeMiniBatchCore_fallback (pm : PagerModel)
    (maxDefinitionLevel maxRepetitionLevel : Int) (dataPagesize numValues : Nat)
    (defLevels repLevels : List Int) (values : List Nat)
    (newEstimatedSize : Nat) (st : ColumnWriterState) :
    (TypedColumnWriterImpl.WriteMiniBatchCore pm maxDefinitionLevel
        maxRepetitionLevel dataPagesize numValues defLevels repLevels values
        newEstimatedSize st).1.fallback = st.fallback := by
  unfold TypedColumnWriterImpl.WriteMiniBatchCore
  by_cases hD : 0 < maxDefinitionLevel <;>
    by_cases hR : 0 < maxRepetitionLevel <;>
      by_cases hE : dataPagesize ≤ newEstimatedSize <;>
        simp [hD, hR, hE, addDataPage_fallback]

theorem writeBytes_eq (src : List Nat) : ∀ (buf : List Nat) (off : Nat),
    off + src.length ≤ buf.length →
    writeBytes buf off src
      = buf.take off ++ src ++ buf.drop (off + src.length) := by
  induction src with
  | nil =>
    intro buf off h
    simp [writeBytes]
  | cons b rest ih =>
    intro buf off h
    have hlt : off < buf.length := by simp at h; omega
    simp only [writeBytes]
    rw [ih (buf.set off b) (off + 1) (by simp at h ⊢; omega)]
    rw [List.set_eq_take_cons_drop b hlt]
    have hta : (buf.take off).length = off := by
      rw [List.length_take]; omega
    rw [List.take_append_eq_append_take, List.drop_append_eq_append_drop]
    rw [List.take_of_length_le (by omega : (buf.take off).length ≤ off + 1)]
    rw [List.drop_eq_nil_of_le
      (by omega : (buf.take off).length ≤ off + 1 + rest.length)]
    simp [hta]
    rw [show off + 1 + rest.length - off = rest.length + 1 by omega]
    rw [List.drop_succ_cons, List.drop_drop]
    congr 1
    omega

theorem writeBytes_assemble (A B C : List Nat) :
    writeBytes (writeBytes (writeBytes
        (List.replicate (B.length + A.length + C.length) 0) 0 A)
        A.length B) (A.length + B.length) C
      = A ++ B ++ C := by
  have h1 : writeBytes (List.replicate (B.length + A.length + C.length) 0) 0 A
      = A ++ List.replicate (B.length + C.length) 0 := by
    rw [writeBytes_eq A _ 0 (by simp; omega)]
    simp [List.drop_replicate]
    omega
  rw [h1]
  have h2 : writeBytes (A ++ List.replicate (B.length + C.length) 0) A.length B
      = A ++ B ++ List.replicate C.length 0 := by
    rw [writeBytes_eq B _ _ (by simp)]
    rw [List.take_left, List.drop_append_eq_append_drop]
    simp [List.drop_replicate]
  rw [h2]
  rw [writeBytes_eq C _ _ (by simp; omega)]
  rw [show A.length + B.length = (A ++ B).length by simp]
  rw [List.take_left, List.drop_append_eq_append_drop]
  simp [List.drop_replicate]

/-- C5: for every data page assembled by `AddDataPage`, the uncompressed
payload is exactly the concatenation, in this order, of the RLE-encoded
repetition levels prefixed by their 4-byte little-endian length (present
iff the max repetition level R > 0), the RLE-encoded definition levels
prefixed by their 4-byte little-endian length (present iff the max
definition level D > 0), and the encoded values flushed from the current
value encoder. -/
theorem addDataPage_payload (rle : Int → List Int → List Nat)
    (maxDefinitionLevel maxRepetitionLevel : Int)
    (defLevels repLevels : List Int) (values : List Nat) :
    AddDataPageUncompressed rle maxDefinitionLevel maxRepetitionLevel
        defLevels repLevels values
      = (if 0 < maxRepetitionLevel then
          u32le (rle maxRepetitionLevel repLevels).length
            ++ rle maxRepetitionLevel repLevels
         else [])
        ++ (if 0 < maxDefinitionLevel then
            u32le (rle maxDefinitionLevel defLevels).length
              ++ rle maxDefinitionLevel defLevels
           else [])
        ++ values := by
  unfold AddDataPageUncompressed
  rw [writeBytes_assemble]
  simp [RleEncodeLevels]

/-- C3: for every mini-batch of `num_levels` levels written through
`WriteMiniBatch`, `values_to_write` — the count handed to `WriteValues`
and so the number of values passed to the value encoder — equals the
count of positions where the definition level equals the maximum
definition level D when D > 0 and equals `num_levels` when D = 0; and
`rows_written` increases by the count of positions where the repetition
level is 0 when the maximum repetition level R > 0, and by `num_levels`
when R = 0. -/
theorem writeMiniBatch_counts (pm : PagerModel)
    (maxDefinitionLevel maxRepetitionLevel : Int)
    (dataPagesize dictionaryPagesizeLimit numValues : Nat)
    (defLevels repLevels : List Int) (values : List Nat)
    (newEstimatedSize newDictEncodedSize newDictNumEntries : Nat)
    (st : ColumnWriterState) :
    (TypedColumnWriterImpl.WriteMiniBatch pm maxDefinitionLevel
        maxRepetitionLevel dataPagesize dictionaryPagesizeLimit numValues
        defLevels repLevels values newEstimatedSize newDictEncodedSize
        newDictNumEntries st).2
      = (if 0 < maxDefinitionLevel then
          defLevels.countP (fun l => l == maxDefinitionLevel) else numValues) ∧
    (TypedColumnWriterImpl.WriteMiniBatch pm maxDefinitionLevel
        maxRepetitionLevel dataPagesize dictionaryPagesizeLimit numValues
        defLevels repLevels values newEstimatedSize newDictEncodedSize
        newDictNumEntries st).1.rowsWritten
      = st.rowsWritten
        + (if 0 < maxRepetitionLevel then
            repLevels.countP (fun l => l == 0) else numValues) := by
  constructor
  · show (TypedColumnWriterImpl.WriteMiniBatchCore pm maxDefinitionLevel
        maxRepetitionLevel dataPagesize numValues defLevels repLevels values
        newEstimatedSize st).2 = _
    unfold TypedColumnWriterImpl.WriteMiniBatchCore
    by_cases hD : 0 < maxDefinitionLevel <;> simp [hD, countEq_eq_countP]
  · unfold TypedColumnWriterImpl.WriteMiniBatch
    by_cases hG : (TypedColumnWriterImpl.WriteMiniBatchCore pm maxDefinitionLevel
        maxRepetitionLevel dataPagesize numValues defLevels repLevels values
        newEstimatedSize st).1.hasDictionary
        && !(TypedColumnWriterImpl.WriteMiniBatchCore pm maxDefinitionLevel
          maxRepetitionLevel dataPagesize numValues defLevels repLevels values
          newEstimatedSize st).1.fallback <;>
      simp [hG, checkDictionarySizeLimit_rowsWritten,
        writeMiniBatchCore_rowsWritten, countEq_eq_countP]

/-- C4: when the dictionary encoder's encoded size has reached
`dictionary_pagesize_limit` while the writer is still dictionary-encoding,
`CheckDictionarySizeLimit` emits the dictionary page, then writes every
buffered data page in the order it was buffered plus a final page from any
still-buffered values, replaces the value encoder with a fresh PLAIN
encoder, sets `encoding = PLAIN`, sets `fallback = true` and leaves the
page buffer empty; afterwards `AddDataPage` writes pages eagerly and the
next `WriteMiniBatch` performs no dictionary check (it coincides with the
check-free core). -/
theorem checkDictionarySizeLimit_spec (pm : PagerModel)
    (dictEncodedSize dictNumEntries dictionaryPagesizeLimit : Nat)
    (maxDefinitionLevel maxRepetitionLevel : Int)
    (dataPagesize nextNumValues : Nat) (nextDefLevels nextRepLevels : List Int)
    (nextValues : List Nat)
    (nextEstimatedSize nextDictEncodedSize nextDictNumEntries : Nat)
    (st : ColumnWriterState)
    (hdict : st.hasDictionary = true) (hfb : st.fallback = false)
    (hlim : dictionaryPagesizeLimit ≤ dictEncodedSize) :
    (TypedColumnWriterImpl.CheckDictionarySizeLimit pm dictEncodedSize
        dictNumEntries dictionaryPagesizeLimit st).writtenPages
      = st.writtenPages ++ [PageRecord.dictPage dictEncodedSize dictNumEntries]
        ++ st.dataPages ++ tailPages st ∧
    (TypedColumnWriterImpl.CheckDictionarySizeLimit pm dictEncodedSize
        dictNumEntries dictionaryPagesizeLimit st).fallback = true ∧
    (TypedColumnWriterImpl.CheckDictionarySizeLimit pm dictEncodedSize
        dictNumEntries dictionaryPagesizeLimit st).encoding = EncodingT.PLAIN ∧
    (TypedColumnWriterImpl.CheckDictionarySizeLimit pm dictEncodedSize
        dictNumEntries dictionaryPagesizeLimit st).encoderIsDict = false ∧
    (TypedColumnWriterImpl.CheckDictionarySizeLimit pm dictEncodedSize
        dictNumEntries dictionaryPagesizeLimit st).encoderValues = [] ∧
    (TypedColumnWriterImpl.CheckDictionarySizeLimit pm dictEncodedSize
        dictNumEntries dictionaryPagesizeLimit st).dataPages = [] ∧
    (ColumnWriterImpl.AddDataPage pm
        (TypedColumnWriterImpl.CheckDictionarySizeLimit pm dictEncodedSize
          dictNumEntries dictionaryPagesizeLimit st)).writtenPages
      = (TypedColumnWriterImpl.CheckDictionarySizeLimit pm dictEncodedSize
          dictNumEntries dictionaryPagesizeLimit st).writtenPages
        ++ [PageRecord.dataPage
            (TypedColumnWriterImpl.CheckDictionarySizeLimit pm dictEncodedSize
              dictNumEntries dictionaryPagesizeLimit st).encoderValues
            (TypedColumnWriterImpl.CheckDictionarySizeLimit pm dictEncodedSize
              dictNumEntries dictionaryPagesizeLimit st).numBufferedValues
            (TypedColumnWriterImpl.CheckDictionarySizeLimit pm dictEncodedSize
              dictNumEntries dictionaryPagesizeLimit st).encoding] ∧
    (ColumnWriterImpl.AddDataPage pm
        (TypedColumnWriterImpl.CheckDictionarySizeLimit pm dictEncodedSize
          dictNumEntries dictionaryPagesizeLimit st)).dataPages
      = (TypedColumnWriterImpl.CheckDictionarySizeLimit pm dictEncodedSize
          dictNumEntries dictionaryPagesizeLimit st).dataPages ∧
    TypedColumnWriterImpl.WriteMiniBatch pm maxDefinitionLevel
        maxRepetitionLevel dataPagesize dictionaryPagesizeLimit nextNumValues
        nextDefLevels nextRepLevels nextValues nextEstimatedSize
        nextDictEncodedSize nextDictNumEntries
        (TypedColumnWriterImpl.CheckDictionarySizeLimit pm dictEncodedSize
          dictNumEntries dictionaryPagesizeLimit st)
      = TypedColumnWriterImpl.WriteMiniBatchCore pm maxDefinitionLevel
          maxRepetitionLevel dataPagesize nextNumValues nextDefLevels
          nextRepLevels nextValues nextEstimatedSize
          (TypedColumnWriterImpl.CheckDictionarySizeLimit pm dictEncodedSize
            dictNumEntries dictionaryPagesizeLimit st) := by
  have hch : TypedColumnWriterImpl.CheckDictionarySizeLimit pm dictEncodedSize
      dictNumEntries dictionaryPagesizeLimit st
      = { ColumnWriterImpl.FlushBufferedDataPages pm
            (ColumnWriterImpl.WriteDictionaryPage pm dictEncodedSize
              dictNumEntries st) with
          fallback := true
          encoderIsDict := false
          encoderValues := []
          encoding := EncodingT.PLAIN } := by
    unfold TypedColumnWriterImpl.CheckDictionarySizeLimit
    rw [if_pos hlim]
  have hfallback : (TypedColumnWriterImpl.CheckDictionarySizeLimit pm
      dictEncodedSize dictNumEntries dictionaryPagesizeLimit st).fallback
      = true := by rw [hch]
  refine ⟨?_, hfallback, ?_, ?_, ?_, ?_, ?_, ?_, ?_⟩
  · rw [hch]
    show (ColumnWriterImpl.FlushBufferedDataPages pm
      (ColumnWriterImpl.WriteDictionaryPage pm dictEncodedSize
        dictNumEntries st)).writtenPages = _
    rw [flushBufferedDataPages_writtenPages]
    simp [ColumnWriterImpl.WriteDictionaryPage, tailPages, hdict, hfb,
      List.append_assoc]
  · rw [hch]
  · rw [hch]
  · rw [hch]
  · rw [hch]
    show (ColumnWriterImpl.FlushBufferedDataPages pm
      (ColumnWriterImpl.WriteDictionaryPage pm dictEncodedSize
        dictNumEntries st)).dataPages = _
    exact flushBufferedDataPages_dataPages _ _
  · rw [addDataPage_eq]
    simp [hfallback]
  · rw [addDataPage_eq]
    simp [hfallback]
  · have h0 : (TypedColumnWriterImpl.WriteMiniBatchCore pm maxDefinitionLevel
        maxRepetitionLevel dataPagesize nextNumValues nextDefLevels
        nextRepLevels nextValues nextEstimatedSize
        (TypedColumnWriterImpl.CheckDictionarySizeLimit pm dictEncodedSize
          dictNumEntries dictionaryPagesizeLimit st)).1.fallback = true := by
      rw [writeMiniBatchCore_fallback, hfallback]
    unfold TypedColumnWriterImpl.WriteMiniBatch
    simp [h0]

/-- Witness for C4: the sample state hits the limit (5 ≤ 6). -/
theorem checkDictionarySizeLimit_spec_witness :
    sampleOpenState.hasDictionary = true ∧ sampleOpenState.fallback = false ∧
    (5 : Nat) ≤ 6 ∧
    ((TypedColumnWriterImpl.CheckDictionarySizeLimit samplePager 6 4 5
        sampleOpenState).writtenPages
      = sampleOpenState.writtenPages ++ [PageRecord.dictPage 6 4]
        ++ sampleOpenState.dataPages ++ tailPages sampleOpenState ∧
    (TypedColumnWriterImpl.CheckDictionarySizeLimit samplePager 6 4 5
        sampleOpenState).fallback = true ∧
    (TypedColumnWriterImpl.CheckDictionarySizeLimit samplePager 6 4 5
        sampleOpenState).encoding = EncodingT.PLAIN ∧
    (TypedColumnWriterImpl.CheckDictionarySizeLimit samplePager 6 4 5
        sampleOpenState).encoderIsDict = false ∧
    (TypedColumnWriterImpl.CheckDictionarySizeLimit samplePager 6 4 5
        sampleOpenState).encoderValues = [] ∧
    (TypedColumnWriterImpl.CheckDictionarySizeLimit samplePager 6 4 5
        sampleOpenState).dataPages = [] ∧
    (ColumnWriterImpl.AddDataPage samplePager
        (TypedColumnWriterImpl.CheckDictionarySizeLimit samplePager 6 4 5
          sampleOpenState)).writtenPages
      = (TypedColumnWriterImpl.CheckDictionarySizeLimit samplePager 6 4 5
          sampleOpenState).writtenPages
        ++ [PageRecord.dataPage
            (TypedColumnWriterImpl.CheckDictionarySizeLimit samplePager 6 4 5
              sampleOpenState).encoderValues
            (TypedColumnWriterImpl.CheckDictionarySizeLimit samplePager 6 4 5
              sampleOpenState).numBufferedValues
            (TypedColumnWriterImpl.CheckDictionarySizeLimit samplePager 6 4 5
              sampleOpenState).encoding] ∧
    (ColumnWriterImpl.AddDataPage samplePager
        (TypedColumnWriterImpl.CheckDictionarySizeLimit samplePager 6 4 5
          sampleOpenState)).dataPages
      = (TypedColumnWriterImpl.CheckDictionarySizeLimit samplePager 6 4 5
          sampleOpenState).dataPages ∧
    TypedColumnWriterImpl.WriteMiniBatch samplePager 1 0 100 5 1 [1] [0] [9]
        0 0 0
        (TypedColumnWriterImpl.CheckDictionarySizeLimit samplePager 6 4 5
          sampleOpenState)
      = TypedColumnWriterImpl.WriteMiniBatchCore samplePager 1 0 100 1 [1]
          [0] [9] 0
          (TypedColumnWriterImpl.CheckDictionarySizeLimit samplePager 6 4 5
            sampleOpenState)) :=
  ⟨rfl, rfl, by decide,
    checkDictionarySizeLimit_spec samplePager 6 4 5 1 0 100 1 [1] [0] [9]
      0 0 0 sampleOpenState rfl rfl (by decide)⟩

/-- C7: `ColumnWriter::Close` is idempotent.  The first call (on an open
writer) emits the dictionary page if dictionary-encoding and not fallen
back, flushes the buffered data pages, marks the writer closed, installs
chunk statistics exactly when `rows_written > 0` and the accumulator is
set, closes the pager, and returns `total_bytes_written`; a subsequent
call performs no writes, changes no state, and returns the same
`total_bytes_written` as the first call. -/
theorem columnWriter_close_idempotent (pm : PagerModel)
    (dictEncodedSize dictNumEntries dictEncodedSize2 dictNumEntries2 : Nat)
    (st : ColumnWriterState) (hopen : st.closed = false) :
    (ColumnWriterImpl.Close pm dictEncodedSize dictNumEntries st).1.writtenPages
      = (if st.hasDictionary && !st.fallback then
          st.writtenPages ++ [PageRecord.dictPage dictEncodedSize dictNumEntries]
            ++ st.dataPages ++ tailPages st
         else st.writtenPages ++ tailPages st ++ st.dataPages) ∧
    (ColumnWriterImpl.Close pm dictEncodedSize dictNumEntries st).1.closed
      = true ∧
    (ColumnWriterImpl.Close pm dictEncodedSize dictNumEntries st).1.pagerClosed
      = true ∧
    (ColumnWriterImpl.Close pm dictEncodedSize dictNumEntries st).1.dataPages
      = [] ∧
    (ColumnWriterImpl.Close pm dictEncodedSize
        dictNumEntries st).1.statisticsInstalled
      = (if 0 < st.rowsWritten && st.chunkStatsSet then true
         else st.statisticsInstalled) ∧
    (ColumnWriterImpl.Close pm dictEncodedSize dictNumEntries st).2
      = (ColumnWriterImpl.Close pm dictEncodedSize
          dictNumEntries st).1.totalBytesWritten ∧
    ColumnWriterImpl.Close pm dictEncodedSize2 dictNumEntries2
        (ColumnWriterImpl.Close pm dictEncodedSize dictNumEntries st).1
      = ((ColumnWriterImpl.Close pm dictEncodedSize dictNumEntries st).1,
         (ColumnWriterImpl.Close pm dictEncodedSize dictNumEntries st).2) := by
  unfold ColumnWriterImpl.Close
  simp only [hopen, Bool.false_eq_true, if_false]
  by_cases hg : st.hasDictionary && !st.fallback <;>
    by_cases hs : 0 < st.rowsWritten ∧ st.chunkStatsSet = true <;>
      simp [hg, hs, flushBufferedDataPages_writtenPages,
        flushBufferedDataPages_rowsWritten, flushBufferedDataPages_closed,
        flushBufferedDataPages_chunkStatsSet, flushBufferedDataPages_dataPages,
        flushBufferedDataPages_pagerClosed,
        flushBufferedDataPages_statisticsInstalled,
        ColumnWriterImpl.WriteDictionaryPage, tailPages, List.append_assoc]

/-- Witness for C7: closing the sample open state. -/
theorem columnWriter_close_idempotent_witness :
    sampleOpenState.closed = false ∧
    ((ColumnWriterImpl.Close samplePager 6 4 sampleOpenState).1.writtenPages
      = (if sampleOpenState.hasDictionary && !sampleOpenState.fallback then
          sampleOpenState.writtenPages ++ [PageRecord.dictPage 6 4]
            ++ sampleOpenState.dataPages ++ tailPages sampleOpenState
         else sampleOpenState.writtenPages ++ tailPages sampleOpenState
            ++ sampleOpenState.dataPages) ∧
    (ColumnWriterImpl.Close samplePager 6 4 sampleOpenState).1.closed = true ∧
    (ColumnWriterImpl.Close samplePager 6 4 sampleOpenState).1.pagerClosed
      = true ∧
    (ColumnWriterImpl.Close samplePager 6 4 sampleOpenState).1.dataPages
      = [] ∧
    (ColumnWriterImpl.Close samplePager 6 4
        sampleOpenState).1.statisticsInstalled
      = (if 0 < sampleOpenState.rowsWritten && sampleOpenState.chunkStatsSet
         then true else sampleOpenState.statisticsInstalled) ∧
    (ColumnWriterImpl.Close samplePager 6 4 sampleOpenState).2
      = (ColumnWriterImpl.Close samplePager 6 4
          sampleOpenState).1.totalBytesWritten ∧
    ColumnWriterImpl.Close samplePager 1 1
        (ColumnWriterImpl.Close samplePager 6 4 sampleOpenState).1
      = ((ColumnWriterImpl.Close samplePager 6 4 sampleOpenState).1,
         (ColumnWriterImpl.Close samplePager 6 4 sampleOpenState).2)) :=
  ⟨rfl, columnWriter_close_idempotent samplePager 6 4 1 1 sampleOpenState rfl⟩

/-- C1: for every column chunk written through a `SerializedPageWriter`
whose sink starts at a positive position (every chunk of a parquet file
does: the 4-byte magic precedes it) and then closed, the `file_offset`
installed in the column-chunk metadata equals (dictionary page offset if
the chunk has a dictionary page, else data page offset) plus
`total_compressed_size`; the metadata records a dictionary page offset
exactly when a dictionary page was written; and `Finish` computed
`file_offset` as `dict_offset + compressed_size` when `dict_offset > 0`
and `data_offset + compressed_size` otherwise. -/
theorem columnChunk_fileOffset (s : Nat) (ops : List PageOp) (hs : 0 < s) :
    (SerializedPageWriter.Close (runPageWriter (PageWriterState.init s) ops)).fileOffset
        = (if ops.any PageOp.isDict then
            ((runPageWriter (PageWriterState.init s) ops).dictionaryPageOffset : Int)
           else ((runPageWriter (PageWriterState.init s) ops).dataPageOffset : Int))
          + ((runPageWriter (PageWriterState.init s) ops).totalCompressedSize : Int) ∧
      (ops.any PageOp.isDict = true ↔
        (SerializedPageWriter.Close
            (runPageWriter (PageWriterState.init s) ops)).dictionaryPageOffset
          = some ((runPageWriter
              (PageWriterState.init s) ops).dictionaryPageOffset : Int)) ∧
      (SerializedPageWriter.Close (runPageWriter (PageWriterState.init s) ops)).fileOffset
        = if 0 < ((runPageWriter
              (PageWriterState.init s) ops).dictionaryPageOffset : Int) then
            ((runPageWriter (PageWriterState.init s) ops).dictionaryPageOffset : Int)
              + ((runPageWriter (PageWriterState.init s) ops).totalCompressedSize : Int)
          else ((runPageWriter (PageWriterState.init s) ops).dataPageOffset : Int)
              + ((runPageWriter (PageWriterState.init s) ops).totalCompressedSize : Int)
    := by
  have hchar := runPageWriter_dictOffset_char ops (PageWriterState.init s)
    (by simpa [PageWriterState.init] using hs) rfl
  cases hany : ops.any PageOp.isDict with
  | false =>
    rw [hany] at hchar
    simp only [if_neg Bool.false_ne_true] at hchar ⊢
    refine ⟨?_, ?_, ?_⟩ <;>
      simp [SerializedPageWriter.Close, ColumnChunkMetaDataBuilder.Finish, hchar]
  | true =>
    rw [hany] at hchar
    simp only [if_pos rfl] at hchar
    have hpos : (0 : Int)
        < ((runPageWriter (PageWriterState.init s) ops).dictionaryPageOffset : Int) := by
      exact_mod_cast hchar
    refine ⟨?_, ?_, ?_⟩ <;>
      simp [SerializedPageWriter.Close, ColumnChunkMetaDataBuilder.Finish, hpos]

/-- Witness for C1: a chunk with one dictionary page and one data page,
starting at sink position 4. -/
theorem columnChunk_fileOffset_witness :
    0 < 4 ∧
      ((SerializedPageWriter.Close (runPageWriter (PageWriterState.init 4)
          [PageOp.dict ⟨2, 3, 5⟩, PageOp.data ⟨7, 11, 13, 2⟩])).fileOffset
          = (if ([PageOp.dict ⟨2, 3, 5⟩,
                  PageOp.data ⟨7, 11, 13, 2⟩] : List PageOp).any PageOp.isDict then
              ((runPageWriter (PageWriterState.init 4)
                [PageOp.dict ⟨2, 3, 5⟩,
                 PageOp.data ⟨7, 11, 13, 2⟩]).dictionaryPageOffset : Int)
             else ((runPageWriter (PageWriterState.init 4)
                [PageOp.dict ⟨2, 3, 5⟩,
                 PageOp.data ⟨7, 11, 13, 2⟩]).dataPageOffset : Int))
            + ((runPageWriter (PageWriterState.init 4)
                [PageOp.dict ⟨2, 3, 5⟩,
                 PageOp.data ⟨7, 11, 13, 2⟩]).totalCompressedSize : Int) ∧
        (([PageOp.dict ⟨2, 3, 5⟩,
            PageOp.data ⟨7, 11, 13, 2⟩] : List PageOp).any PageOp.isDict = true ↔
          (SerializedPageWriter.Close (runPageWriter (PageWriterState.init 4)
              [PageOp.dict ⟨2, 3, 5⟩,
               PageOp.data ⟨7, 11, 13, 2⟩])).dictionaryPageOffset
            = some ((runPageWriter (PageWriterState.init 4)
                [PageOp.dict ⟨2, 3, 5⟩,
                 PageOp.data ⟨7, 11, 13, 2⟩]).dictionaryPageOffset : Int)) ∧
        (SerializedPageWriter.Close (runPageWriter (PageWriterState.init 4)
            [PageOp.dict ⟨2, 3, 5⟩, PageOp.data ⟨7, 11, 13, 2⟩])).fileOffset
          = if 0 < ((runPageWriter (PageWriterState.init 4)
                [PageOp.dict ⟨2, 3, 5⟩,
                 PageOp.data ⟨7, 11, 13, 2⟩]).dictionaryPageOffset : Int) then
              ((runPageWriter (PageWriterState.init 4)
                [PageOp.dict ⟨2, 3, 5⟩,
                 PageOp.data ⟨7, 11, 13, 2⟩]).dictionaryPageOffset : Int)
                + ((runPageWriter (PageWriterState.init 4)
                  [PageOp.dict ⟨2, 3, 5⟩,
                   PageOp.data ⟨7, 11, 13, 2⟩]).totalCompressedSize : Int)
            else ((runPageWriter (PageWriterState.init 4)
                [PageOp.dict ⟨2, 3, 5⟩,
                 PageOp.data ⟨7, 11, 13, 2⟩]).dataPageOffset : Int)
                + ((runPageWriter (PageWriterState.init 4)
                  [PageOp.dict ⟨2, 3, 5⟩,
                   PageOp.data ⟨7, 11, 13, 2⟩]).totalCompressedSize : Int)) :=
  ⟨by decide, columnChunk_fileOffset 4 _ (by decide)⟩

/-- C6 counterexample: one data page whose serialized thrift header
occupies 1 byte and whose payload is empty.  The page writer's
`total_uncompressed_size` is 1 (the code adds `header_size` on top of the
page's `uncompressed_page_size`), while the sum over the chunk's pages of
`uncompressed_page_size` is 0, so the claimed equality fails. -/
theorem pageWriter_totals_counterexample :
    ¬ ((runPageWriter (PageWriterState.init 4)
          [PageOp.data ⟨1, 0, 0, 0⟩]).totalUncompressedSize
        = ([PageOp.data ⟨1, 0, 0, 0⟩].map PageOp.uncompressedPageSize).sum) := by
  decide

/-- C6 amended: after all pages of a chunk are written, the page writer's
`total_uncompressed_size` equals the sum over the chunk's pages of each
page's `uncompressed_page_size` PLUS its serialized header size, and
`total_compressed_size` equals the sum of each page's
`compressed_page_size` plus its serialized header size. -/
theorem pageWriter_totals_eq (s : Nat) (ops : List PageOp) :
    (runPageWriter (PageWriterState.init s) ops).totalUncompressedSize
        = (ops.map (fun op => op.uncompressedPageSize + op.headerSize)).sum ∧
      (runPageWriter (PageWriterState.init s) ops).totalCompressedSize
        = (ops.map (fun op => op.compressedPageSize + op.headerSize)).sum := by
  have h := runPageWriter_totals ops (PageWriterState.init s)
  simpa [PageWriterState.init] using h

/-- C8 counterexample: a page writer whose sink starts at position 0 (the
buffered writer's in-memory sink does, when the column has no dictionary
page) and receives two data pages of 2 bytes each.  The sink position at
the time of the first `WriteDataPage` call is 0, but the final recorded
`data_page_offset` is 2 — the 0-sentinel made the first call's record a
no-op and the second call overwrote it. -/
theorem dataPageOffset_counterexample :
    ¬ ((runPageWriter (PageWriterState.init 0)
          [PageOp.data ⟨1, 1, 0, 0⟩, PageOp.data ⟨1, 1, 0, 0⟩]).dataPageOffset
        = (PageWriterState.init 0).sinkPos) := by
  decide

/-- C8 amended: provided the sink position at the first `WriteDataPage`
call is nonzero (the writes before the first data page, if any, are
dictionary pages, and the sink starts at a positive position),
`data_page_offset` equals the sink position observed at the time of the
first `WriteDataPage` call and is left unchanged by all later calls; in
the buffered variant this recorded offset is rebased at `Close` by adding
the final sink's position before the metadata is finished. -/
theorem dataPageOffset_first_write (s finalPosition : Nat)
    (pre post : List PageOp) (p : DataPageSizes) (hs : 0 < s)
    (hpre : pre.all PageOp.isDict = true) :
    (runPageWriter (PageWriterState.init s)
        (pre ++ PageOp.data p :: post)).dataPageOffset
      = (runPageWriter (PageWriterState.init s) pre).sinkPos ∧
    (BufferedPageWriter.Close finalPosition
        (runPageWriter (PageWriterState.init s)
          (pre ++ PageOp.data p :: post))).dataPageOffset
      = ((runPageWriter (PageWriterState.init s)
          (pre ++ PageOp.data p :: post)).dataPageOffset : Int)
        + (finalPosition : Int) := by
  constructor
  · have hpre0 : (runPageWriter (PageWriterState.init s) pre).dataPageOffset = 0 :=
      runPageWriter_allDict_dataOffset pre _ hpre
    have hposSink : 0 < (runPageWriter (PageWriterState.init s) pre).sinkPos :=
      lt_of_lt_of_le (by simpa [PageWriterState.init] using hs)
        (runPageWriter_sinkPos_le pre _)
    have hstep : (pageWriterStep (runPageWriter (PageWriterState.init s) pre)
        (PageOp.data p)).dataPageOffset
        = (runPageWriter (PageWriterState.init s) pre).sinkPos := by
      simp [pageWriterStep, SerializedPageWriter.WriteDataPage, hpre0]
    calc (runPageWriter (PageWriterState.init s)
          (pre ++ PageOp.data p :: post)).dataPageOffset
        = (runPageWriter (pageWriterStep
            (runPageWriter (PageWriterState.init s) pre)
            (PageOp.data p)) post).dataPageOffset := by
          rw [runPageWriter_append]; rfl
      _ = (pageWriterStep (runPageWriter (PageWriterState.init s) pre)
            (PageOp.data p)).dataPageOffset := by
          apply runPageWriter_dataOffset_of_ne
          rw [hstep]; omega
      _ = (runPageWriter (PageWriterState.init s) pre).sinkPos := hstep
  · simp [BufferedPageWriter.Close, ColumnChunkMetaDataBuilder.Finish]

/-- Witness for C8 (amended): a dictionary page, then two data pages,
starting at sink position 4, buffered close at final position 100. -/
theorem dataPageOffset_first_write_witness :
    0 < 4 ∧ ([PageOp.dict ⟨2, 3, 5⟩] : List PageOp).all PageOp.isDict = true ∧
      ((runPageWriter (PageWriterState.init 4)
          ([PageOp.dict ⟨2, 3, 5⟩]
            ++ PageOp.data ⟨7, 11, 13, 2⟩
              :: [PageOp.data ⟨6, 10, 12, 3⟩])).dataPageOffset
        = (runPageWriter (PageWriterState.init 4) [PageOp.dict ⟨2, 3, 5⟩]).sinkPos ∧
      (BufferedPageWriter.Close 100
          (runPageWriter (PageWriterState.init 4)
            ([PageOp.dict ⟨2, 3, 5⟩]
              ++ PageOp.data ⟨7, 11, 13, 2⟩
                :: [PageOp.data ⟨6, 10, 12, 3⟩]))).dataPageOffset
        = ((runPageWriter (PageWriterState.init 4)
            ([PageOp.dict ⟨2, 3, 5⟩]
              ++ PageOp.data ⟨7, 11, 13, 2⟩
                :: [PageOp.data ⟨6, 10, 12, 3⟩])).dataPageOffset : Int)
          + ((100 : Nat) : Int)) :=
  ⟨by decide, by decide,
    dataPageOffset_first_write 4 100 [PageOp.dict ⟨2, 3, 5⟩]
      [PageOp.data ⟨6, 10, 12, 3⟩] ⟨7, 11, 13, 2⟩ (by decide) (by decide)⟩

/-- C10: `FileMetaData.version()` is total over every parsed footer: it
returns `PARQUET_2_0` exactly when the stored version field equals 2, and
`PARQUET_1_0` for every other stored value (1, 0, negative, or greater
than 2), never failing. -/
theorem fileMetaData_version_total (storedVersion : Int) :
    FileMetaData.version storedVersion =
      if storedVersion = 2 then ParquetVersionT.PARQUET_2_0
      else ParquetVersionT.PARQUET_1_0 := by
  unfold FileMetaData.version
  by_cases h1 : storedVersion = 1
  · subst h1; simp
  · by_cases h2 : storedVersion = 2 <;> simp [h1, h2]

/-- C9: `Encryptor.EncryptColumnMetaData(encrypted_footer, props)` returns
`true` iff the column's encryption properties exist and mark the column as
encrypted, and either the footer is plaintext or the column is not
encrypted with the footer key. -/
theorem encryptColumnMetaData_iff (encryptedFooter : Bool)
    (props : Option ColumnEncryptionPropertiesT) :
    Encryptor.EncryptColumnMetaData encryptedFooter props = true ↔
      ∃ p, props = some p ∧ p.isEncrypted = true ∧
        (encryptedFooter = false ∨ p.isEncryptedWithFooterKey = false) := by
  cases props with
  | none => simp [Encryptor.EncryptColumnMetaData]
  | some p =>
    simp only [Encryptor.EncryptColumnMetaData, Option.some.injEq]
    constructor
    · intro h
      refine ⟨p, rfl, ?_, ?_⟩
      · by_contra hne
        have : p.isEncrypted = false := by
          cases hp : p.isEncrypted
          · rfl
          · exact absurd hp hne
        simp [this] at h
      · cases hef : encryptedFooter
        · exact Or.inl rfl
        · cases hp : p.isEncrypted
          · simp [hp] at h
          · simp [hp, hef] at h
            exact Or.inr h
    · rintro ⟨q, hq, henc, hkey⟩
      cases hq
      rcases hkey with hef | hk
      · simp [henc, hef]
      · cases hef : encryptedFooter <;> simp [henc, hk, hef]


theorem footer_region (file : List Nat) (k : Nat) (h8 : 8 ≤ file.length)
    (hk : k ≤ 8) :
    (file.drop (file.length - min file.length kDefaultFooterReadSize)).drop
        (min file.length kDefaultFooterReadSize - k)
      = file.drop (file.length - k) := by
  rw [List.drop_drop]
  congr 1
  have h1 : 8 ≤ min file.length kDefaultFooterReadSize := by
    apply le_min h8
    norm_num [kDefaultFooterReadSize]
  have h2 : min file.length kDefaultFooterReadSize ≤ file.length :=
    min_le_left _ _
  omega

/-- C2: for every input file, `ParseMetaData` fails with a terminal error
when the file size is smaller than 8 bytes, when the last 4 bytes are
neither `PAR1` nor `PARE`, and when the u32 little-endian footer length
read from the 4 bytes before the magic satisfies
`footer_length + 8 > file_size`; in particular, every file of exactly 8
bytes is rejected.  The hypotheses record the Thrift codec contract the
last part consumes: deserializing a `FileMetaData` or a
`FileCryptoMetaData` (both have required fields) from an empty buffer
fails. -/
theorem parseMetaData_rejects
    (deserializeFileMetaData : List Nat → Option ParsedFileMetaData)
    (deserializeFileCryptoMetaData : List Nat → Option Unit)
    (plaintextFooterCont : ParsedFileMetaData → Except String Unit)
    (encryptedFooterCont : Except String Unit)
    (fileDecryptionProperties : Option FileDecryptionPropertiesT)
    (file : List Nat)
    (hFMD : deserializeFileMetaData [] = none)
    (hCrypto : deserializeFileCryptoMetaData [] = none) :
    (file.length < 8 →
      isFailure (SerializedFile.ParseMetaData deserializeFileMetaData
        deserializeFileCryptoMetaData plaintextFooterCont encryptedFooterCont
        fileDecryptionProperties file) = true) ∧
    (file.drop (file.length - 4) ≠ kParquetMagic →
     file.drop (file.length - 4) ≠ kParquetEMagic →
      isFailure (SerializedFile.ParseMetaData deserializeFileMetaData
        deserializeFileCryptoMetaData plaintextFooterCont encryptedFooterCont
        fileDecryptionProperties file) = true) ∧
    (u32leDecode ((file.drop (file.length - 8)).take 4) + 8 > file.length →
      isFailure (SerializedFile.ParseMetaData deserializeFileMetaData
        deserializeFileCryptoMetaData plaintextFooterCont encryptedFooterCont
        fileDecryptionProperties file) = true) ∧
    (file.length = 8 →
      isFailure (SerializedFile.ParseMetaData deserializeFileMetaData
        deserializeFileCryptoMetaData plaintextFooterCont encryptedFooterCont
        fileDecryptionProperties file) = true) := by
  have hp1 : file.length < 8 →
      isFailure (SerializedFile.ParseMetaData deserializeFileMetaData
        deserializeFileCryptoMetaData plaintextFooterCont encryptedFooterCont
        fileDecryptionProperties file) = true := by
    intro hlt
    unfold SerializedFile.ParseMetaData
    by_cases h0 : file.length = 0 <;> simp [h0, hlt, kFooterSize, isFailure]
  refine ⟨hp1, ?_, ?_, ?_⟩
  · intro hm1 hm2
    by_cases hlt : file.length < 8
    · exact hp1 hlt
    · have h8 : 8 ≤ file.length := by omega
      have hm := footer_region file 4 h8 (by omega)
      unfold SerializedFile.ParseMetaData
      simp only [kFooterSize, hm]
      simp [show ¬ file.length = 0 by omega, show ¬ file.length < 8 by omega,
        hm1, hm2, isFailure]
  · intro hlen
    by_cases hlt : file.length < 8
    · exact hp1 hlt
    · have h8 : 8 ≤ file.length := by omega
      have hm4 := footer_region file 4 h8 (by omega)
      have hm8 := footer_region file 8 h8 (by omega)
      unfold SerializedFile.ParseMetaData
        SerializedFile.ParseUnencryptedFileMetadata
        SerializedFile.ParseMetaDataOfEncryptedFileWithEncryptedFooter
      simp only [kFooterSize, hm4, hm8]
      simp only [show ¬ file.length = 0 by omega, show ¬ file.length < 8 by omega,
        if_false, not_false_eq_true]
      split_ifs <;> simp_all [isFailure] <;> omega
  · intro h8
    unfold SerializedFile.ParseMetaData
      SerializedFile.ParseUnencryptedFileMetadata
      SerializedFile.ParseMetaDataOfEncryptedFileWithEncryptedFooter
    simp only [h8, kFooterSize, kDefaultFooterReadSize]
    simp only [show min 8 (64 * 1024) = 8 by norm_num, Nat.sub_self,
      List.drop_zero]
    split_ifs <;> simp_all [isFailure]
    cases fileDecryptionProperties <;> rfl

/-- Witness for C2: the 8-byte file `00 00 00 00 P A R 1` — valid magic,
footer length 0 — exercises the last conjunct through the empty-buffer
deserializer contract; deserializers that reject the empty buffer. -/
theorem parseMetaData_rejects_witness :
    (fun (_ : List Nat) => (none : Option ParsedFileMetaData)) [] = none ∧
    (fun (_ : List Nat) => (none : Option Unit)) [] = none ∧
    ((([0, 0, 0, 0, 80, 65, 82, 49] : List Nat).length < 8 →
      isFailure (SerializedFile.ParseMetaData (fun _ => none) (fun _ => none)
        (fun _ => Except.ok ()) (Except.ok ()) none
        [0, 0, 0, 0, 80, 65, 82, 49]) = true) ∧
    (([0, 0, 0, 0, 80, 65, 82, 49] : List Nat).drop
        (([0, 0, 0, 0, 80, 65, 82, 49] : List Nat).length - 4)
        ≠ kParquetMagic →
     ([0, 0, 0, 0, 80, 65, 82, 49] : List Nat).drop
        (([0, 0, 0, 0, 80, 65, 82, 49] : List Nat).length - 4)
        ≠ kParquetEMagic →
      isFailure (SerializedFile.ParseMetaData (fun _ => none) (fun _ => none)
        (fun _ => Except.ok ()) (Except.ok ()) none
        [0, 0, 0, 0, 80, 65, 82, 49]) = true) ∧
    (u32leDecode ((([0, 0, 0, 0, 80, 65, 82, 49] : List Nat).drop
          (([0, 0, 0, 0, 80, 65, 82, 49] : List Nat).length - 8)).take 4) + 8
        > ([0, 0, 0, 0, 80, 65, 82, 49] : List Nat).length →
      isFailure (SerializedFile.ParseMetaData (fun _ => none) (fun _ => none)
        (fun _ => Except.ok ()) (Except.ok ()) none
        [0, 0, 0, 0, 80, 65, 82, 49]) = true) ∧
    (([0, 0, 0, 0, 80, 65, 82, 49] : List Nat).length = 8 →
      isFailure (SerializedFile.ParseMetaData (fun _ => none) (fun _ => none)
        (fun _ => Except.ok ()) (Except.ok ()) none
        [0, 0, 0, 0, 80, 65, 82, 49]) = true)) :=
  ⟨rfl, rfl,
    parseMetaData_rejects (fun _ => none) (fun _ => none)
      (fun _ => Except.ok ()) (Except.ok ()) none
      [0, 0, 0, 0, 80, 65, 82, 49] rfl rfl⟩
end ParquetModel
